import Mathlib

/-!
# A model of the `dive-default-mcp` filesystem tool group

This file embeds the filesystem tool group of `src/service/fs.rs` (the
five handlers `read_file`, `write_file`, `list_directory`,
`create_directory`, `delete_file`, and the helper `is_binary_file`) as
executable Lean definitions, and proves the spec's testable properties
about them.

Modelling choices:

* File contents and OS-level names are byte sequences, `List Nat` with
  every element `< 256`.
* The host filesystem is a rooted tree `Node`: a node is either a file
  with its bytes or a directory with an association list of named
  children.  A path is the list of its components (the caller's path
  string split at separators).
* `tokio::fs` primitives are modelled as deterministic functions on that
  tree returning `Except String α`; the `String` is the OS error text
  (the concrete texts are representative, e.g. "No such file or
  directory (os error 2)"; no proof depends on their exact wording).
* Rust `String` values (the `content` parameter, text read results) are
  valid UTF-8 byte sequences; `validUtf8` is the standard RFC 3629
  validation that `std::str::from_utf8` performs.
* `general_purpose::STANDARD` of the base64 crate is modelled by
  `base64Encode` (standard alphabet, `=` padding); `base64Decode` is its
  inverse, used to state the round-trip law.
-/

namespace DiveMcp

/-- UTF-8 continuation byte: `0x80 ≤ b ≤ 0xBF`. -/
def contByte (b : Nat) : Bool :=
  0x80 ≤ b && b ≤ 0xBF

/-- RFC 3629 UTF-8 validity of a byte sequence, as checked by Rust's
`std::str::from_utf8` (hence by `tokio::fs::read_to_string` and
`OsString::into_string`). -/
def validUtf8 : List Nat → Bool
  | [] => true
  | b :: rest =>
    if b ≤ 0x7F then
      validUtf8 rest
    else if 0xC2 ≤ b && b ≤ 0xDF then
      match rest with
      | b2 :: rest2 => contByte b2 && validUtf8 rest2
      | [] => false
    else if b = 0xE0 then
      match rest with
      | b2 :: b3 :: rest2 =>
        (0xA0 ≤ b2 && b2 ≤ 0xBF) && contByte b3 && validUtf8 rest2
      | _ => false
    else if (0xE1 ≤ b && b ≤ 0xEC) || b = 0xEE || b = 0xEF then
      match rest with
      | b2 :: b3 :: rest2 => contByte b2 && contByte b3 && validUtf8 rest2
      | _ => false
    else if b = 0xED then
      match rest with
      | b2 :: b3 :: rest2 =>
        (0x80 ≤ b2 && b2 ≤ 0x9F) && contByte b3 && validUtf8 rest2
      | _ => false
    else if b = 0xF0 then
      match rest with
      | b2 :: b3 :: b4 :: rest2 =>
        (0x90 ≤ b2 && b2 ≤ 0xBF) && contByte b3 && contByte b4 && validUtf8 rest2
      | _ => false
    else if 0xF1 ≤ b && b ≤ 0xF3 then
      match rest with
      | b2 :: b3 :: b4 :: rest2 =>
        contByte b2 && contByte b3 && contByte b4 && validUtf8 rest2
      | _ => false
    else if b = 0xF4 then
      match rest with
      | b2 :: b3 :: b4 :: rest2 =>
        (0x80 ≤ b2 && b2 ≤ 0x8F) && contByte b3 && contByte b4 && validUtf8 rest2
      | _ => false
    else
      false

/-- The UTF-8 encoding of a Unicode code point. -/
def encodeCodePoint (n : Nat) : List Nat :=
  if n < 0x80 then [n]
  else if n < 0x800 then [0xC0 + n / 64, 0x80 + n % 64]
  else if n < 0x10000 then [0xE0 + n / 4096, 0x80 + n / 64 % 64, 0x80 + n % 64]
  else [0xF0 + n / 262144, 0x80 + n / 4096 % 64, 0x80 + n / 64 % 64, 0x80 + n % 64]

/-- The UTF-8 bytes of a Lean string literal, used to write the fixed
marker and message texts of `fs.rs` as byte sequences. -/
def strBytes (s : String) : List Nat :=
  s.data.flatMap (fun c => encodeCodePoint c.toNat)

/-- The standard base64 alphabet (RFC 4648): the ASCII code of the
character encoding a 6-bit group `i < 64`. -/
def base64Char (i : Nat) : Nat :=
  if i < 26 then 65 + i
  else if i < 52 then 97 + (i - 26)
  else if i < 62 then 48 + (i - 52)
  else if i = 62 then 43
  else 47

/-- Inverse of the standard base64 alphabet: the 6-bit group encoded by
an ASCII code, or `none` for a character outside the alphabet. -/
def base64Index (c : Nat) : Option Nat :=
  if 65 ≤ c && c ≤ 90 then some (c - 65)
  else if 97 ≤ c && c ≤ 122 then some (26 + (c - 97))
  else if 48 ≤ c && c ≤ 57 then some (52 + (c - 48))
  else if c = 43 then some 62
  else if c = 47 then some 63
  else none

/-- Standard base64 encoding with `=` padding (the behaviour of the
base64 crate's `general_purpose::STANDARD.encode` used at
`fs.rs:79`), producing the ASCII codes of the encoded string. -/
def base64Encode : List Nat → List Nat
  | [] => []
  | [a] => [base64Char (a / 4), base64Char (a % 4 * 16), 61, 61]
  | [a, b] =>
    [base64Char (a / 4), base64Char (a % 4 * 16 + b / 16), base64Char (b % 16 * 4), 61]
  | a :: b :: c :: rest =>
    base64Char (a / 4) :: base64Char (a % 4 * 16 + b / 16) ::
      base64Char (b % 16 * 4 + c / 64) :: base64Char (c % 64) :: base64Encode rest

/-- Standard base64 decoding with `=` padding, the inverse used to state
the round-trip law for `base64Encode`. -/
def base64Decode : List Nat → Option (List Nat)
  | [] => some []
  | c1 :: c2 :: c3 :: c4 :: rest =>
    match base64Index c1, base64Index c2 with
    | some i1, some i2 =>
      if c3 = 61 then
        if c4 = 61 && rest.isEmpty then some [i1 * 4 + i2 / 16] else none
      else
        match base64Index c3 with
        | some i3 =>
          if c4 = 61 then
            if rest.isEmpty then some [i1 * 4 + i2 / 16, i2 % 16 * 16 + i3 / 4] else none
          else
            match base64Index c4, base64Decode rest with
            | some i4, some tail =>
              some ((i1 * 4 + i2 / 16) :: (i2 % 16 * 16 + i3 / 4) :: (i3 % 4 * 64 + i4) :: tail)
            | _, _ => none
        | none => none
    | _, _ => none
  | _ => none

theorem base64Index_base64Char : ∀ i < 64, base64Index (base64Char i) = some i := by
  decide

theorem base64Char_ne_pad : ∀ i < 64, base64Char i ≠ 61 := by
  decide

theorem base64Index_ne_pad {c i : Nat} (h : base64Index c = some i) : c ≠ 61 := by
  intro hc
  subst hc
  simp [base64Index] at h

theorem base64Decode_two {c1 c2 i1 i2 : Nat}
    (h1 : base64Index c1 = some i1) (h2 : base64Index c2 = some i2) :
    base64Decode [c1, c2, 61, 61] = some [i1 * 4 + i2 / 16] := by
  simp [base64Decode, h1, h2]

theorem base64Decode_three {c1 c2 c3 i1 i2 i3 : Nat}
    (h1 : base64Index c1 = some i1) (h2 : base64Index c2 = some i2)
    (h3 : base64Index c3 = some i3) :
    base64Decode [c1, c2, c3, 61] = some [i1 * 4 + i2 / 16, i2 % 16 * 16 + i3 / 4] := by
  have hc3 : c3 ≠ 61 := base64Index_ne_pad h3
  simp [base64Decode, h1, h2, h3, hc3]

theorem base64Decode_four {c1 c2 c3 c4 i1 i2 i3 i4 : Nat} {rest tail : List Nat}
    (h1 : base64Index c1 = some i1) (h2 : base64Index c2 = some i2)
    (h3 : base64Index c3 = some i3) (h4 : base64Index c4 = some i4)
    (hrest : base64Decode rest = some tail) :
    base64Decode (c1 :: c2 :: c3 :: c4 :: rest) =
      some ((i1 * 4 + i2 / 16) :: (i2 % 16 * 16 + i3 / 4) :: (i3 % 4 * 64 + i4) :: tail) := by
  have hc3 : c3 ≠ 61 := base64Index_ne_pad h3
  have hc4 : c4 ≠ 61 := base64Index_ne_pad h4
  simp [base64Decode, h1, h2, h3, h4, hc3, hc4, hrest]

/-- Round-trip law of the standard base64 codec: decoding an encoded
byte sequence recovers it exactly. -/
theorem base64_roundtrip :
    ∀ bs : List Nat, (∀ b ∈ bs, b < 256) → base64Decode (base64Encode bs) = some bs := by
  intro bs
  induction bs using base64Encode.induct with
  | case1 =>
    intro _
    rfl
  | case2 a =>
    intro h
    have ha : a < 256 := h a (by simp)
    have e1 := base64Index_base64Char (a / 4) (by omega)
    have e2 := base64Index_base64Char (a % 4 * 16) (by omega)
    have v1 : a / 4 * 4 + a % 4 * 16 / 16 = a := by omega
    show base64Decode [base64Char (a / 4), base64Char (a % 4 * 16), 61, 61] = some [a]
    rw [base64Decode_two e1 e2, v1]
  | case3 a b =>
    intro h
    have ha : a < 256 := h a (by simp)
    have hb : b < 256 := h b (by simp)
    have e1 := base64Index_base64Char (a / 4) (by omega)
    have e2 := base64Index_base64Char (a % 4 * 16 + b / 16) (by omega)
    have e3 := base64Index_base64Char (b % 16 * 4) (by omega)
    have v1 : a / 4 * 4 + (a % 4 * 16 + b / 16) / 16 = a := by omega
    have v2 : (a % 4 * 16 + b / 16) % 16 * 16 + b % 16 * 4 / 4 = b := by omega
    show base64Decode
        [base64Char (a / 4), base64Char (a % 4 * 16 + b / 16), base64Char (b % 16 * 4), 61] =
      some [a, b]
    rw [base64Decode_three e1 e2 e3, v1, v2]
  | case4 a b c rest ih =>
    intro h
    have ha : a < 256 := h a (by simp)
    have hb : b < 256 := h b (by simp)
    have hc : c < 256 := h c (by simp)
    have hrest : base64Decode (base64Encode rest) = some rest :=
      ih (fun x hx => h x (by simp [hx]))
    have e1 := base64Index_base64Char (a / 4) (by omega)
    have e2 := base64Index_base64Char (a % 4 * 16 + b / 16) (by omega)
    have e3 := base64Index_base64Char (b % 16 * 4 + c / 64) (by omega)
    have e4 := base64Index_base64Char (c % 64) (by omega)
    have v1 : a / 4 * 4 + (a % 4 * 16 + b / 16) / 16 = a := by omega
    have v2 : (a % 4 * 16 + b / 16) % 16 * 16 + (b % 16 * 4 + c / 64) / 4 = b := by omega
    have v3 : (b % 16 * 4 + c / 64) % 4 * 64 + c % 64 = c := by omega
    show base64Decode
        (base64Char (a / 4) :: base64Char (a % 4 * 16 + b / 16) ::
          base64Char (b % 16 * 4 + c / 64) :: base64Char (c % 64) :: base64Encode rest) =
      some (a :: b :: c :: rest)
    rw [base64Decode_four e1 e2 e3 e4 hrest, v1, v2, v3]

/-- An OS-level name: the bytes of one path component / directory-entry
name (valid UTF-8 exactly when `OsString::into_string` would succeed). -/
abbrev FsName := List Nat

/-- A path, as the list of its components. -/
abbrev Path := List FsName

/-- A node of the host filesystem: a regular file with its bytes, or a
directory with an association list of named children. -/
inductive Node where
  | file (bytes : List Nat)
  | dir (children : List (FsName × Node))
deriving Repr

/-- Whether a node is a directory (the metadata `is_dir` bit). -/
def isDirNode : Node → Bool
  | .file _ => false
  | .dir _ => true

/-- Look a name up in a directory's children. -/
def findChild (cs : List (FsName × Node)) (name : FsName) : Option Node :=
  match cs with
  | [] => none
  | (k, v) :: rest => if k = name then some v else findChild rest name

/-- Replace (or append) the child of the given name. -/
def setChild (cs : List (FsName × Node)) (name : FsName) (n : Node) :
    List (FsName × Node) :=
  match cs with
  | [] => [(name, n)]
  | (k, v) :: rest => if k = name then (name, n) :: rest else (k, v) :: setChild rest name n

/-- Remove the child of the given name. -/
def removeChild (cs : List (FsName × Node)) (name : FsName) : List (FsName × Node) :=
  match cs with
  | [] => []
  | (k, v) :: rest => if k = name then rest else (k, v) :: removeChild rest name

/-- Navigate a path from a node: the node the path refers to, if any. -/
def resolve : Node → Path → Option Node
  | n, [] => some n
  | .file _, _ :: _ => none
  | .dir cs, name :: rest =>
    match findChild cs name with
    | some c => resolve c rest
    | none => none

/-- Representative OS error texts (no proof depends on their wording). -/
def enoent : String := "No such file or directory (os error 2)"

def eisdir : String := "Is a directory (os error 21)"

def enotdir : String := "Not a directory (os error 20)"

def eexist : String := "File exists (os error 17)"

/-- Model of `tokio::fs::read`: the whole byte content of the file at
the path, or the OS error. -/
def fsReadBytes (root : Node) (p : Path) : Except String (List Nat) :=
  match resolve root p with
  | some (.file bytes) => .ok bytes
  | some (.dir _) => .error eisdir
  | none => .error enoent

/-- Model of `tokio::fs::read_to_string`: the file's bytes when they are
valid UTF-8 (the bytes of the returned Rust `String`), an error
otherwise. -/
def fsReadToString (root : Node) (p : Path) : Except String (List Nat) :=
  match resolve root p with
  | some (.file bytes) =>
    if validUtf8 bytes then .ok bytes else .error "stream did not contain valid UTF-8"
  | some (.dir _) => .error eisdir
  | none => .error enoent

/-- Model of `tokio::fs::write` (create-or-truncate): the updated tree,
or the OS error (target is a directory, missing or non-directory
parent). -/
def fsWrite : Node → Path → List Nat → Except String Node
  | .file _, _, _ => .error enotdir
  | .dir _, [], _ => .error eisdir
  | .dir cs, [name], bytes =>
    match findChild cs name with
    | some (.dir _) => .error eisdir
    | _ => .ok (.dir (setChild cs name (.file bytes)))
  | .dir cs, name :: rest, bytes =>
    match findChild cs name with
    | some c => (fsWrite c rest bytes).map (fun c2 => .dir (setChild cs name c2))
    | none => .error enoent

/-- Model of `tokio::fs::create_dir_all`: create the directory and every
missing intermediate parent; succeed when the full path already is a
directory; fail when a component exists as a file. -/
def fsCreateDirAll : Node → Path → Except String Node
  | .file _, _ => .error eexist
  | .dir cs, [] => .ok (.dir cs)
  | .dir cs, name :: rest =>
    match findChild cs name with
    | some c => (fsCreateDirAll c rest).map (fun c2 => .dir (setChild cs name c2))
    | none => (fsCreateDirAll (.dir []) rest).map (fun c2 => .dir (setChild cs name c2))

/-- Model of `tokio::fs::remove_file`: remove exactly one file; fail on
a directory or a missing target. -/
def fsRemoveFile : Node → Path → Except String Node
  | .file _, _ => .error enotdir
  | .dir _, [] => .error eisdir
  | .dir cs, [name] =>
    match findChild cs name with
    | some (.file _) => .ok (.dir (removeChild cs name))
    | some (.dir _) => .error eisdir
    | none => .error enoent
  | .dir cs, name :: rest =>
    match findChild cs name with
    | some c => (fsRemoveFile c rest).map (fun c2 => .dir (setChild cs name c2))
    | none => .error enoent

/-- One entry as yielded by `read_dir`/`next_entry`: the OS name bytes,
and the metadata verdict of `entry.path().is_dir()`'s underlying
`fs::metadata` call — `some b` when metadata succeeds with `is_dir = b`,
`none` when the metadata lookup fails. -/
structure DirEntry where
  name : FsName
  meta : Option Bool
deriving Repr

/-- Model of `tokio::fs::read_dir` plus draining `next_entry`: the
directory's entries, or the OS error. In the deterministic tree the
per-entry metadata lookup always succeeds. -/
def fsReadDir (root : Node) (p : Path) : Except String (List DirEntry) :=
  match resolve root p with
  | some (.dir cs) => .ok (cs.map (fun c => ⟨c.1, some (isDirNode c.2)⟩))
  | some (.file _) => .error enotdir
  | none => .error enoent

/-- Model of `std::path::Path::is_dir`, used at `fs.rs:132`: `true` only
when the metadata lookup succeeded and reported a directory; a failed
metadata lookup yields `false`. -/
def pathIsDir (m : Option Bool) : Bool :=
  m.getD false

/-- The code `rmcp::model::ErrorCode::INTERNAL_ERROR` (JSON-RPC internal error). -/
def INTERNAL_ERROR : Int := -32603

/-- Model of `rmcp::ErrorData` as built by `McpError::new(code, message,
None)` in every failure arm of `fs.rs`. -/
structure McpErrorData where
  code : Int
  message : String
deriving Repr, DecidableEq

/-- Model of `rmcp::model::CallToolResult`: every content item produced
by `fs.rs` is a text item, carried here as its UTF-8 bytes.
`CallToolResult::success` sets the error flag to false. -/
structure CallToolResult where
  isError : Bool
  content : List (List Nat)
deriving Repr, DecidableEq

/-- Model of `CallToolResult::success(vec![Content::text(…)])`. -/
def successResult (items : List (List Nat)) : CallToolResult :=
  ⟨false, items⟩

/-- The fixed marker prefixed to base64-encoded binary content at
`fs.rs:81`: the UTF-8 bytes of `"[Binary file encoded as base64]\n"`. -/
def markerBytes : List Nat :=
  strBytes "[Binary file encoded as base64]\x0a"

/-- The caller-supplied path string as rendered into the success
messages: the components joined by the separator. -/
def renderPath (p : Path) : List Nat :=
  List.intercalate (strBytes "/") p

/-- Model of `is_binary_file` (`fs.rs:47-54`): open the file, read at
most its first 8192 bytes, and report whether that prefix holds a null
byte; I/O failures propagate. -/
def is_binary_file (root : Node) (p : Path) : Except String Bool :=
  match resolve root p with
  | some (.file bytes) => .ok ((bytes.take 8192).contains 0)
  | some (.dir _) => .error eisdir
  | none => .error enoent

/-- Model of the `read_file` handler (`fs.rs:58-102`). -/
def read_file (root : Node) (p : Path) : Except McpErrorData CallToolResult :=
  match is_binary_file root p with
  | .error e => .error ⟨INTERNAL_ERROR, "Failed to check file type: " ++ e⟩
  | .ok true =>
    match fsReadBytes root p with
    | .ok bytes => .ok (successResult [markerBytes ++ base64Encode bytes])
    | .error e => .error ⟨INTERNAL_ERROR, "Failed to read binary file: " ++ e⟩
  | .ok false =>
    match fsReadToString root p with
    | .ok content => .ok (successResult [content])
    | .error e => .error ⟨INTERNAL_ERROR, "Failed to read file: " ++ e⟩

/-- Model of the `write_file` handler (`fs.rs:104-120`); on success the
pair also carries the updated filesystem. -/
def write_file (root : Node) (p : Path) (content : List Nat) :
    Except McpErrorData (CallToolResult × Node) :=
  match fsWrite root p content with
  | .ok root2 =>
    .ok (successResult [strBytes "Successfully wrote to " ++ renderPath p], root2)
  | .error e => .error ⟨INTERNAL_ERROR, "Failed to write file: " ++ e⟩

/-- The loop body of `list_directory` (`fs.rs:128-142`) applied to the
entries yielded by `read_dir`: entries whose name is not valid text are
skipped by the `if let Ok(file_name)` test; each kept entry becomes one
line `"<name> (<directory|file>)"`, `is_dir` deciding the label; the
lines are joined with a newline into one text item. -/
def listDirLoop (entries : List DirEntry) : CallToolResult :=
  successResult
    [List.intercalate (strBytes "\x0a")
      (entries.filterMap (fun e =>
        if validUtf8 e.name then
          some (e.name ++ strBytes " (" ++
            strBytes (if pathIsDir e.meta then "directory" else "file") ++ strBytes ")")
        else none))]

/-- Model of the `list_directory` handler (`fs.rs:122-150`). -/
def list_directory (root : Node) (p : Path) : Except McpErrorData CallToolResult :=
  match fsReadDir root p with
  | .ok entries => .ok (listDirLoop entries)
  | .error e => .error ⟨INTERNAL_ERROR, "Failed to list directory: " ++ e⟩

/-- Model of the `create_directory` handler (`fs.rs:152-168`). -/
def create_directory (root : Node) (p : Path) :
    Except McpErrorData (CallToolResult × Node) :=
  match fsCreateDirAll root p with
  | .ok root2 =>
    .ok (successResult [strBytes "Successfully created directory: " ++ renderPath p], root2)
  | .error e => .error ⟨INTERNAL_ERROR, "Failed to create directory: " ++ e⟩

/-- Model of the `delete_file` handler (`fs.rs:170-186`). -/
def delete_file (root : Node) (p : Path) :
    Except McpErrorData (CallToolResult × Node) :=
  match fsRemoveFile root p with
  | .ok root2 =>
    .ok (successResult [strBytes "Successfully deleted file: " ++ renderPath p], root2)
  | .error e => .error ⟨INTERNAL_ERROR, "Failed to delete file: " ++ e⟩

/-- One invocation of a filesystem tool with its parameters. -/
inductive Invocation where
  | readFile (path : Path)
  | writeFile (path : Path) (content : List Nat)
  | listDir (path : Path)
  | createDir (path : Path)
  | deleteFile (path : Path)

/-- Run one invocation against the filesystem: the handler's result and
the filesystem afterwards. -/
def dispatch (root : Node) : Invocation → Except McpErrorData (CallToolResult × Node)
  | .readFile p => (read_file root p).map (fun r => (r, root))
  | .writeFile p content => write_file root p content
  | .listDir p => (list_directory root p).map (fun r => (r, root))
  | .createDir p => create_directory root p
  | .deleteFile p => delete_file root p

/-- The `<verb>` phrases of the five handlers' failure messages. -/
def failVerbs : List String :=
  ["check file type", "read binary file", "read file", "write file",
   "list directory", "create directory", "delete file"]

/-- The normalized failure shape shared by all five handlers: the
internal-error code, and a message of the form
`"Failed to <verb>: <underlying cause>"`. -/
def WellFormedFail (e : McpErrorData) : Prop :=
  e.code = INTERNAL_ERROR ∧
    ∃ verb cause, verb ∈ failVerbs ∧ e.message = "Failed to " ++ verb ++ ": " ++ cause

/-- A small concrete filesystem used by the witness theorems. -/
def demoFs : Node :=
  .dir [(strBytes "t.txt", .file (strBytes "hello")),
        (strBytes "bin", .file [0, 1, 2]),
        (strBytes "empty", .file []),
        (strBytes "d", .dir [])]

theorem findChild_setChild (cs : List (FsName × Node)) (name : FsName) (n : Node) :
    findChild (setChild cs name n) name = some n := by
  induction cs with
  | nil => simp [setChild, findChild]
  | cons kv rest ih =>
    obtain ⟨k, v⟩ := kv
    by_cases hk : k = name
    · simp [setChild, findChild, hk]
    · simp [setChild, findChild, hk, ih]

theorem setChild_of_findChild {cs : List (FsName × Node)} {name : FsName} {c : Node}
    (h : findChild cs name = some c) : setChild cs name c = cs := by
  induction cs with
  | nil => simp [findChild] at h
  | cons kv rest ih =>
    obtain ⟨k, v⟩ := kv
    by_cases hk : k = name
    · simp [findChild, hk] at h
      simp [setChild, hk, h]
    · simp [findChild, hk] at h
      simp [setChild, hk, ih h]

theorem take_min_length (l : List Nat) (n : Nat) : l.take (min l.length n) = l.take n := by
  rw [List.take_eq_take]
  omega

/-- A successful `fsWrite` leaves exactly the written file at the target
path. -/
theorem resolve_fsWrite {bytes : List Nat} :
    ∀ (p : Path) (root root2 : Node),
      fsWrite root p bytes = .ok root2 → resolve root2 p = some (.file bytes) := by
  intro p
  induction p with
  | nil =>
    intro root root2 h
    cases root <;> simp [fsWrite] at h
  | cons name rest ih =>
    intro root root2 h
    cases root with
    | file b => simp [fsWrite] at h
    | dir cs =>
      cases rest with
      | nil =>
        cases hf : findChild cs name with
        | none =>
          simp [fsWrite, hf] at h
          subst h
          simp [resolve, findChild_setChild]
        | some c =>
          cases c with
          | file b2 =>
            simp [fsWrite, hf] at h
            subst h
            simp [resolve, findChild_setChild]
          | dir cs2 => simp [fsWrite, hf] at h
      | cons r2 rest2 =>
        cases hf : findChild cs name with
        | none => simp [fsWrite, hf] at h
        | some c =>
          cases hw : fsWrite c (r2 :: rest2) bytes with
          | error e => simp [fsWrite, hf, hw, Except.map] at h
          | ok c2 =>
            simp [fsWrite, hf, hw, Except.map] at h
            subst h
            simp [resolve, findChild_setChild]
            exact ih c c2 hw

/-- The text branch of `read_file`: a file classified as text whose
bytes are valid UTF-8 is returned verbatim. -/
theorem read_file_text_of {root : Node} {p : Path} {bytes : List Nat}
    (hres : resolve root p = some (.file bytes))
    (hnull : (bytes.take 8192).contains 0 = false)
    (hutf : validUtf8 bytes = true) :
    read_file root p = .ok (successResult [bytes]) := by
  have hb : is_binary_file root p = .ok false := by
    simp [is_binary_file, hres]
    simpa using hnull
  simp [read_file, hb, fsReadToString, hres, hutf]

/-- C2: for every readable file, the binary classifier samples at most
the first 8192 bytes and answers `true` exactly when that prefix (the
first `min (file size) 8192` bytes) holds a null byte. -/
theorem is_binary_file_verdict {root : Node} {p : Path} {bytes : List Nat}
    (hres : resolve root p = some (.file bytes)) :
    ∃ v, is_binary_file root p = .ok v ∧
      (v = true ↔ 0 ∈ bytes.take (min bytes.length 8192)) := by
  refine ⟨(bytes.take 8192).contains 0, ?_, ?_⟩
  · simp [is_binary_file, hres]
  · rw [take_min_length]
    exact List.elem_iff

theorem is_binary_file_verdict_witness :
    ∃ v, is_binary_file demoFs [strBytes "bin"] = .ok v ∧
      (v = true ↔ 0 ∈ List.take (min (List.length [0, 1, 2]) 8192) [0, 1, 2]) :=
  is_binary_file_verdict (by rfl)

/-- C1: a file whose first 8192 bytes hold a null byte is returned as
exactly one text item: the fixed marker followed by the standard base64
encoding of the whole file, and decoding that payload gives back the
original bytes. -/
theorem read_file_binary_roundtrip {root : Node} {p : Path} {bytes : List Nat}
    (hres : resolve root p = some (.file bytes))
    (hnull : 0 ∈ bytes.take 8192)
    (hbytes : ∀ b ∈ bytes, b < 256) :
    read_file root p = .ok (successResult [markerBytes ++ base64Encode bytes]) ∧
      base64Decode (base64Encode bytes) = some bytes := by
  have hb : is_binary_file root p = .ok true := by
    simp [is_binary_file, hres]
    simpa using hnull
  constructor
  · simp [read_file, hb, fsReadBytes, hres]
  · exact base64_roundtrip bytes hbytes

theorem read_file_binary_roundtrip_witness :
    read_file demoFs [strBytes "bin"] =
        .ok (successResult [markerBytes ++ base64Encode [0, 1, 2]]) ∧
      base64Decode (base64Encode [0, 1, 2]) = some [0, 1, 2] :=
  read_file_binary_roundtrip (by rfl) (by decide) (by decide)

/-- C3: a file whose first 8192 bytes hold no null byte and whose whole
content is valid text is returned verbatim as exactly one text item,
with no marker prefix. -/
theorem read_file_text_verbatim {root : Node} {p : Path} {bytes : List Nat}
    (hres : resolve root p = some (.file bytes))
    (hnull : 0 ∉ bytes.take 8192)
    (hutf : validUtf8 bytes = true) :
    read_file root p = .ok (successResult [bytes]) :=
  read_file_text_of hres (by simpa using hnull) hutf

theorem read_file_text_verbatim_witness :
    read_file demoFs [strBytes "t.txt"] = .ok (successResult [strBytes "hello"]) :=
  read_file_text_verbatim (by rfl) (by decide) (by decide)

/-- C10: an existing empty file is classified as text (its empty prefix
sample holds no null byte) and read back as exactly one text item, the
empty string. -/
theorem read_file_empty_file {root : Node} {p : Path}
    (hres : resolve root p = some (.file [])) :
    read_file root p = .ok (successResult [[]]) :=
  read_file_text_of hres (by decide) (by decide)

theorem read_file_empty_file_witness :
    read_file demoFs [strBytes "empty"] = .ok (successResult [[]]) :=
  read_file_empty_file (by rfl)

/-- State of `demoFs` after writing the two-byte text "hi" to `new.txt`. -/
def demoFsWritten : Node :=
  .dir [(strBytes "t.txt", .file (strBytes "hello")),
        (strBytes "bin", .file [0, 1, 2]),
        (strBytes "empty", .file []),
        (strBytes "d", .dir []),
        (strBytes "new.txt", .file (strBytes "hi"))]

/-- State of `demoFs` after creating the directory `a`. -/
def demoFsA : Node :=
  .dir [(strBytes "t.txt", .file (strBytes "hello")),
        (strBytes "bin", .file [0, 1, 2]),
        (strBytes "empty", .file []),
        (strBytes "d", .dir []),
        (strBytes "a", .dir [])]

/-- State of `demoFs` after deleting `t.txt`. -/
def demoFsDeleted : Node :=
  .dir [(strBytes "bin", .file [0, 1, 2]),
        (strBytes "empty", .file []),
        (strBytes "d", .dir [])]

/-- C6: a successful `write_file` followed immediately by `read_file`
on the same path (no interleaving operation) returns the written
content unchanged, provided the content (a Rust string, hence valid
UTF-8) holds no null byte in its first 8192 bytes. -/
theorem write_then_read_roundtrip (root : Node) (p : Path) (content : List Nat)
    (r : CallToolResult) (root2 : Node)
    (hw : write_file root p content = .ok (r, root2))
    (hnull : 0 ∉ content.take 8192)
    (hutf : validUtf8 content = true) :
    read_file root2 p = .ok (successResult [content]) := by
  have hfw : fsWrite root p content = .ok root2 := by
    cases hfw : fsWrite root p content with
    | error e => simp [write_file, hfw] at hw
    | ok n =>
      simp [write_file, hfw] at hw
      rw [hw.2]
  exact read_file_text_of (resolve_fsWrite p root root2 hfw) (by simpa using hnull) hutf

theorem write_then_read_roundtrip_witness :
    read_file demoFsWritten [strBytes "new.txt"] = .ok (successResult [strBytes "hi"]) :=
  write_then_read_roundtrip demoFs [strBytes "new.txt"] (strBytes "hi")
    (successResult [strBytes "Successfully wrote to new.txt"]) demoFsWritten
    (by rfl) (by decide) (by decide)

/-- C9: the success confirmations of the three mutating tools embed the
caller-supplied path in the advertised wire format. -/
theorem success_message_formats (root : Node) (p : Path) (content : List Nat) :
    (∀ r root2, write_file root p content = .ok (r, root2) →
      r = successResult [strBytes "Successfully wrote to " ++ renderPath p]) ∧
    (∀ r root2, create_directory root p = .ok (r, root2) →
      r = successResult [strBytes "Successfully created directory: " ++ renderPath p]) ∧
    (∀ r root2, delete_file root p = .ok (r, root2) →
      r = successResult [strBytes "Successfully deleted file: " ++ renderPath p]) := by
  refine ⟨?_, ?_, ?_⟩ <;> intro r root2 h
  · cases hfw : fsWrite root p content with
    | error e => simp [write_file, hfw] at h
    | ok n =>
      simp [write_file, hfw] at h
      rw [← h.1]
  · cases hfc : fsCreateDirAll root p with
    | error e => simp [create_directory, hfc] at h
    | ok n =>
      simp [create_directory, hfc] at h
      rw [← h.1]
  · cases hfr : fsRemoveFile root p with
    | error e => simp [delete_file, hfr] at h
    | ok n =>
      simp [delete_file, hfr] at h
      rw [← h.1]

theorem success_message_formats_witness :
    successResult [strBytes "Successfully wrote to new.txt"] =
        successResult [strBytes "Successfully wrote to " ++ renderPath [strBytes "new.txt"]] ∧
      successResult [strBytes "Successfully created directory: a"] =
        successResult
          [strBytes "Successfully created directory: " ++ renderPath [strBytes "a"]] ∧
      successResult [strBytes "Successfully deleted file: t.txt"] =
        successResult [strBytes "Successfully deleted file: " ++ renderPath [strBytes "t.txt"]] :=
  ⟨(success_message_formats demoFs [strBytes "new.txt"] (strBytes "hi")).1
      (successResult [strBytes "Successfully wrote to new.txt"]) demoFsWritten (by rfl),
   (success_message_formats demoFs [strBytes "a"] []).2.1
      (successResult [strBytes "Successfully created directory: a"]) demoFsA (by rfl),
   (success_message_formats demoFs [strBytes "t.txt"] []).2.2
      (successResult [strBytes "Successfully deleted file: t.txt"]) demoFsDeleted (by rfl)⟩

/-- After a successful `fsCreateDirAll`, every prefix of the path
(including the whole path) refers to a directory. -/
theorem resolve_fsCreateDirAll :
    ∀ (p : Path) (root root2 : Node), fsCreateDirAll root p = .ok root2 →
      ∀ q, q <+: p → ∃ cs, resolve root2 q = some (.dir cs) := by
  intro p
  induction p with
  | nil =>
    intro root root2 h q hq
    cases root with
    | file b => simp [fsCreateDirAll] at h
    | dir cs =>
      simp [fsCreateDirAll] at h
      subst h
      rw [List.prefix_nil.mp hq]
      exact ⟨cs, rfl⟩
  | cons name rest ih =>
    intro root root2 h q hq
    cases root with
    | file b => simp [fsCreateDirAll] at h
    | dir cs =>
      cases hf : findChild cs name with
      | some c =>
        cases hc : fsCreateDirAll c rest with
        | error e => simp [fsCreateDirAll, hf, hc, Except.map] at h
        | ok c2 =>
          simp [fsCreateDirAll, hf, hc, Except.map] at h
          subst h
          rcases q with _ | ⟨a, q2⟩
          · exact ⟨_, rfl⟩
          · obtain ⟨ha, hq2⟩ := List.cons_prefix_cons.mp hq
            subst ha
            obtain ⟨cs2, hres⟩ := ih c c2 hc q2 hq2
            exact ⟨cs2, by simp [resolve, findChild_setChild, hres]⟩
      | none =>
        cases hc : fsCreateDirAll (.dir []) rest with
        | error e => simp [fsCreateDirAll, hf, hc, Except.map] at h
        | ok c2 =>
          simp [fsCreateDirAll, hf, hc, Except.map] at h
          subst h
          rcases q with _ | ⟨a, q2⟩
          · exact ⟨_, rfl⟩
          · obtain ⟨ha, hq2⟩ := List.cons_prefix_cons.mp hq
            subst ha
            obtain ⟨cs2, hres⟩ := ih _ c2 hc q2 hq2
            exact ⟨cs2, by simp [resolve, findChild_setChild, hres]⟩

/-- Creating a directory whose full path already refers to a directory
succeeds without change: `fsCreateDirAll` returns the tree unmodified. -/
theorem fsCreateDirAll_of_resolve :
    ∀ (p : Path) (root : Node) (cs : List (FsName × Node)),
      resolve root p = some (.dir cs) → fsCreateDirAll root p = .ok root := by
  intro p
  induction p with
  | nil =>
    intro root cs h
    simp [resolve] at h
    subst h
    rfl
  | cons name rest ih =>
    intro root cs h
    cases root with
    | file b => simp [resolve] at h
    | dir cs0 =>
      cases hf : findChild cs0 name with
      | none => simp [resolve, hf] at h
      | some c =>
        simp [resolve, hf] at h
        have hc := ih c cs h
        simp [fsCreateDirAll, hf, hc, Except.map, setChild_of_findChild hf]

/-- C7: `create_directory` is idempotent — after a success, repeating
the call on the resulting filesystem succeeds with the same result; on
success every prefix of the path (all intermediate parents) exists as a
directory; and on a path that already is a directory it succeeds
without changing the filesystem. -/
theorem create_directory_idempotent (root : Node) (p : Path) :
    (∀ r root2, create_directory root p = .ok (r, root2) →
      create_directory root2 p = .ok (r, root2) ∧
        ∀ q, q <+: p → ∃ cs, resolve root2 q = some (.dir cs)) ∧
    (∀ cs, resolve root p = some (.dir cs) →
      create_directory root p = .ok
        (successResult [strBytes "Successfully created directory: " ++ renderPath p], root)) := by
  constructor
  · intro r root2 h
    cases hc : fsCreateDirAll root p with
    | error e => simp [create_directory, hc] at h
    | ok n =>
      simp [create_directory, hc] at h
      obtain ⟨hr, hn⟩ := h
      subst hn
      have hpref := resolve_fsCreateDirAll p root n hc
      obtain ⟨cs, hcs⟩ := hpref p (List.prefix_refl p)
      have h2 : fsCreateDirAll n p = .ok n := fsCreateDirAll_of_resolve p n cs hcs
      exact ⟨by simp [create_directory, h2, ← hr], hpref⟩
  · intro cs h
    simp [create_directory, fsCreateDirAll_of_resolve p root cs h]

theorem create_directory_idempotent_witness :
    create_directory demoFsA [strBytes "a"] =
      .ok (successResult [strBytes "Successfully created directory: a"], demoFsA) :=
  (((create_directory_idempotent demoFs [strBytes "a"]).1
      (successResult [strBytes "Successfully created directory: a"]) demoFsA) (by rfl)).1

/-- Removal via `fsRemoveFile` fails on every path that refers to a directory. -/
theorem fsRemoveFile_on_dir :
    ∀ (p : Path) (root : Node) (cs : List (FsName × Node)),
      resolve root p = some (.dir cs) → ∃ msg, fsRemoveFile root p = .error msg := by
  intro p
  induction p with
  | nil =>
    intro root cs h
    simp [resolve] at h
    subst h
    exact ⟨eisdir, rfl⟩
  | cons name rest ih =>
    intro root cs h
    cases root with
    | file b => simp [resolve] at h
    | dir cs0 =>
      cases hf : findChild cs0 name with
      | none => simp [resolve, hf] at h
      | some c =>
        simp [resolve, hf] at h
        cases rest with
        | nil =>
          simp [resolve] at h
          subst h
          exact ⟨eisdir, by simp [fsRemoveFile, hf]⟩
        | cons r2 rest2 =>
          obtain ⟨msg, hmsg⟩ := ih c cs h
          exact ⟨msg, by simp [fsRemoveFile, hf, hmsg, Except.map]⟩

/-- C8: `delete_file` on a path that refers to an existing directory
fails with an internal-error Structured Error rather than reporting
success. -/
theorem delete_file_on_directory_fails (root : Node) (p : Path)
    (cs : List (FsName × Node)) (h : resolve root p = some (.dir cs)) :
    ∃ e, delete_file root p = .error e ∧ e.code = INTERNAL_ERROR := by
  obtain ⟨msg, hmsg⟩ := fsRemoveFile_on_dir p root cs h
  exact ⟨⟨INTERNAL_ERROR, "Failed to delete file: " ++ msg⟩, by simp [delete_file, hmsg], rfl⟩

theorem delete_file_on_directory_fails_witness :
    ∃ e, delete_file demoFs [strBytes "d"] = .error e ∧ e.code = INTERNAL_ERROR :=
  delete_file_on_directory_fails demoFs [strBytes "d"] [] (by rfl)

/-- C5 (amended): on a readable directory, `list_directory` succeeds
with exactly one text item, the newline-join of one
`"<name> (directory|file)"` line per entry whose name is valid text;
entries with a non-text name are skipped; the empty directory gives the
empty string. (Entries whose metadata lookup fails are NOT skipped —
see `list_directory_metadata_not_skipped`.) -/
theorem list_directory_lines (root : Node) (p : Path) (cs : List (FsName × Node))
    (h : resolve root p = some (.dir cs)) :
    list_directory root p = .ok (successResult
      [List.intercalate (strBytes "\x0a")
        (cs.filterMap (fun c =>
          if validUtf8 c.1 then
            some (c.1 ++ strBytes " (" ++
              strBytes (if isDirNode c.2 then "directory" else "file") ++ strBytes ")")
          else none))]) := by
  simp [list_directory, fsReadDir, h, listDirLoop, List.filterMap_map, pathIsDir]
  congr 3

theorem list_directory_lines_witness :
    list_directory demoFs [strBytes "d"] = .ok (successResult [strBytes ""]) :=
  list_directory_lines demoFs [strBytes "d"] [] (by rfl)

/-- C5 counterexample: a directory entry whose metadata lookup fails
(`entry.path().is_dir()` answers `false` on a metadata error) is NOT
silently skipped: the loop of `fs.rs:130-138` emits the line
`"<name> (file)"` for it, where the claim's skipping would leave the
empty output. -/
theorem list_directory_metadata_not_skipped :
    listDirLoop [⟨strBytes "x", none⟩] = successResult [strBytes "x (file)"] ∧
      strBytes "x (file)" ≠ strBytes "" := by
  constructor
  · rfl
  · decide

/-- The failure shape common to the seven error arms of `fs.rs`. -/
theorem wff_verb (verb cause : String) (hv : verb ∈ failVerbs) :
    WellFormedFail ⟨INTERNAL_ERROR, "Failed to " ++ verb ++ ": " ++ cause⟩ :=
  ⟨rfl, verb, cause, hv, rfl⟩

/-- Result/error shape of the `read_file` handler. -/
theorem read_file_shape (root : Node) (p : Path) :
    (∀ r, read_file root p = .ok r → r.isError = false ∧ r.content.length = 1) ∧
    (∀ e, read_file root p = .error e → WellFormedFail e) := by
  cases hb : is_binary_file root p with
  | error e0 =>
    have hrf : read_file root p =
        .error ⟨INTERNAL_ERROR, "Failed to check file type: " ++ e0⟩ := by
      simp [read_file, hb]
    rw [hrf]
    constructor
    · intro r h
      simp at h
    · intro e h
      injection h with he
      rw [← he]
      exact wff_verb "check file type" e0 (by simp [failVerbs])
  | ok b =>
    cases b with
    | true =>
      cases hr : fsReadBytes root p with
      | ok bytes =>
        have hrf : read_file root p =
            .ok (successResult [markerBytes ++ base64Encode bytes]) := by
          simp [read_file, hb, hr]
        rw [hrf]
        constructor
        · intro r h
          injection h with he
          rw [← he]
          exact ⟨rfl, rfl⟩
        · intro e h
          simp at h
      | error e0 =>
        have hrf : read_file root p =
            .error ⟨INTERNAL_ERROR, "Failed to read binary file: " ++ e0⟩ := by
          simp [read_file, hb, hr]
        rw [hrf]
        constructor
        · intro r h
          simp at h
        · intro e h
          injection h with he
          rw [← he]
          exact wff_verb "read binary file" e0 (by simp [failVerbs])
    | false =>
      cases hr : fsReadToString root p with
      | ok content =>
        have hrf : read_file root p = .ok (successResult [content]) := by
          simp [read_file, hb, hr]
        rw [hrf]
        constructor
        · intro r h
          injection h with he
          rw [← he]
          exact ⟨rfl, rfl⟩
        · intro e h
          simp at h
      | error e0 =>
        have hrf : read_file root p =
            .error ⟨INTERNAL_ERROR, "Failed to read file: " ++ e0⟩ := by
          simp [read_file, hb, hr]
        rw [hrf]
        constructor
        · intro r h
          simp at h
        · intro e h
          injection h with he
          rw [← he]
          exact wff_verb "read file" e0 (by simp [failVerbs])

/-- Result/error shape of the `write_file` handler. -/
theorem write_file_shape (root : Node) (p : Path) (content : List Nat) :
    (∀ r root2, write_file root p content = .ok (r, root2) →
      r.isError = false ∧ r.content.length = 1) ∧
    (∀ e, write_file root p content = .error e → WellFormedFail e) := by
  cases hw : fsWrite root p content with
  | ok n =>
    constructor
    · intro r root2 h
      simp [write_file, hw] at h
      rw [← h.1]
      exact ⟨rfl, rfl⟩
    · intro e h
      simp [write_file, hw] at h
  | error e0 =>
    constructor
    · intro r root2 h
      simp [write_file, hw] at h
    · intro e h
      simp [write_file, hw] at h
      rw [← h]
      exact wff_verb "write file" e0 (by simp [failVerbs])

/-- Result/error shape of the `list_directory` handler. -/
theorem list_directory_shape (root : Node) (p : Path) :
    (∀ r, list_directory root p = .ok r → r.isError = false ∧ r.content.length = 1) ∧
    (∀ e, list_directory root p = .error e → WellFormedFail e) := by
  cases hd : fsReadDir root p with
  | ok entries =>
    constructor
    · intro r h
      simp [list_directory, hd] at h
      rw [← h]
      exact ⟨rfl, rfl⟩
    · intro e h
      simp [list_directory, hd] at h
  | error e0 =>
    constructor
    · intro r h
      simp [list_directory, hd] at h
    · intro e h
      simp [list_directory, hd] at h
      rw [← h]
      exact wff_verb "list directory" e0 (by simp [failVerbs])

/-- Result/error shape of the `create_directory` handler. -/
theorem create_directory_shape (root : Node) (p : Path) :
    (∀ r root2, create_directory root p = .ok (r, root2) →
      r.isError = false ∧ r.content.length = 1) ∧
    (∀ e, create_directory root p = .error e → WellFormedFail e) := by
  cases hc : fsCreateDirAll root p with
  | ok n =>
    constructor
    · intro r root2 h
      simp [create_directory, hc] at h
      rw [← h.1]
      exact ⟨rfl, rfl⟩
    · intro e h
      simp [create_directory, hc] at h
  | error e0 =>
    constructor
    · intro r root2 h
      simp [create_directory, hc] at h
    · intro e h
      simp [create_directory, hc] at h
      rw [← h]
      exact wff_verb "create directory" e0 (by simp [failVerbs])

/-- Result/error shape of the `delete_file` handler. -/
theorem delete_file_shape (root : Node) (p : Path) :
    (∀ r root2, delete_file root p = .ok (r, root2) →
      r.isError = false ∧ r.content.length = 1) ∧
    (∀ e, delete_file root p = .error e → WellFormedFail e) := by
  cases hd : fsRemoveFile root p with
  | ok n =>
    constructor
    · intro r root2 h
      simp [delete_file, hd] at h
      rw [← h.1]
      exact ⟨rfl, rfl⟩
    · intro e h
      simp [delete_file, hd] at h
  | error e0 =>
    constructor
    · intro r root2 h
      simp [delete_file, hd] at h
    · intro e h
      simp [delete_file, hd] at h
      rw [← h]
      exact wff_verb "delete file" e0 (by simp [failVerbs])

/-- C4: every invocation of any of the five filesystem tools either
succeeds with exactly one text content item, or fails with exactly one
internal-error Structured Error whose message reads
`"Failed to <verb>: <underlying cause>"`; no failure leaves a handler
unclassified. -/
theorem tool_result_normalization (root : Node) (inv : Invocation) :
    (∀ r root2, dispatch root inv = .ok (r, root2) →
      r.isError = false ∧ r.content.length = 1) ∧
    (∀ e, dispatch root inv = .error e → WellFormedFail e) := by
  cases inv with
  | readFile p =>
    obtain ⟨hok, herr⟩ := read_file_shape root p
    constructor
    · intro r root2 h
      cases hrf : read_file root p with
      | error e0 => simp [dispatch, hrf, Except.map] at h
      | ok r0 =>
        simp [dispatch, hrf, Except.map] at h
        rw [← h.1]
        exact hok r0 hrf
    · intro e h
      cases hrf : read_file root p with
      | ok r0 => simp [dispatch, hrf, Except.map] at h
      | error e0 =>
        simp [dispatch, hrf, Except.map] at h
        rw [← h]
        exact herr e0 hrf
  | writeFile p content =>
    exact write_file_shape root p content
  | listDir p =>
    obtain ⟨hok, herr⟩ := list_directory_shape root p
    constructor
    · intro r root2 h
      cases hrf : list_directory root p with
      | error e0 => simp [dispatch, hrf, Except.map] at h
      | ok r0 =>
        simp [dispatch, hrf, Except.map] at h
        rw [← h.1]
        exact hok r0 hrf
    · intro e h
      cases hrf : list_directory root p with
      | ok r0 => simp [dispatch, hrf, Except.map] at h
      | error e0 =>
        simp [dispatch, hrf, Except.map] at h
        rw [← h]
        exact herr e0 hrf
  | createDir p =>
    exact create_directory_shape root p
  | deleteFile p =>
    exact delete_file_shape root p

theorem tool_result_normalization_witness :
    ((successResult [strBytes "hello"]).isError = false ∧
      (successResult [strBytes "hello"]).content.length = 1) ∧
    WellFormedFail ⟨INTERNAL_ERROR, "Failed to delete file: " ++ eisdir⟩ :=
  ⟨(tool_result_normalization demoFs (.readFile [strBytes "t.txt"])).1
      (successResult [strBytes "hello"]) demoFs (by rfl),
   (tool_result_normalization demoFs (.deleteFile [strBytes "d"])).2
      ⟨INTERNAL_ERROR, "Failed to delete file: " ++ eisdir⟩ (by rfl)⟩

end DiveMcp
